import Mathlib

/-!
Verification of `fossick.py` (parmaviolet/fossick), a CLI tool that queries
search-engine APIs, probes the returned URLs concurrently, and reports the
HTTP status of each link.

The Python source is shallowly embedded below.  External effects (the HTTP
client, the Google / Bing APIs, the local file system) are modelled as
oracles passed in explicitly; `asyncio.gather(..., return_exceptions=True)`
is modelled by its documented semantics: one result per awaitable, in the
order the awaitables were submitted, with a raised exception captured as a
value in the result list instead of propagating.
-/

namespace Fossick

/-- A Python exception value (we only need to distinguish them). -/
inductive PyErr
  | exn (msg : String)
deriving Repr, DecidableEq

/-- An HTTP response as seen by `check_url_status`: `response.status` and
the body bytes returned by `response.read()`. -/
structure HttpResponse where
  status : Nat
  body : List Nat
deriving Repr, DecidableEq

/-- The dictionary `{'search_engine': ..., 'url': ..., 'http_code': ...}`
returned by `check_url_status` on success. -/
structure ProbeOutcome where
  search_engine : String
  url : String
  http_code : Nat
deriving Repr, DecidableEq

/-- One element of the list returned by
`asyncio.gather(*tasks, return_exceptions=True)`: either the task's value
or its captured exception. -/
inductive GatherResult
  | ok (o : ProbeOutcome)
  | exn (e : PyErr)
deriving Repr, DecidableEq

/-- A file write performed by the download branch: file name and bytes. -/
structure FileWrite where
  name : String
  content : List Nat
deriving Repr, DecidableEq

/-- The ambient effects available to one probe: `session.get` (which may
raise), the `ARGS.download` flag, and the `aiofiles` write path (which may
raise, e.g. on a full disk). -/
structure ProbeEnv where
  get : String → Except PyErr HttpResponse
  download : Bool
  write : String → List Nat → Except PyErr Unit

/-- `os.path.basename(url)`: everything after the last `/` (the whole
string when there is no `/`). -/
def basename (url : String) : String :=
  ⟨(url.data.reverse.takeWhile (fun c => c ≠ '/')).reverse⟩

/-- Embedding of `check_url_status(session, search_engine, url)`.

```python
async with session.get(url) as response:
    http_code = response.status
    if response.status == 200 and ARGS.download:
        f = await aiofiles.open(os.path.basename(url), mode='wb')
        await f.write(await response.read())
        await f.close()
    return {'search_engine': search_engine, 'url': url, 'http_code': http_code}
```

The coroutine either raises (`.error`) — when `session.get` raises, or when
the download write raises, since nothing catches either — or returns the
outcome dictionary together with the file writes it performed. -/
def check_url_status (env : ProbeEnv) (search_engine url : String) :
    Except PyErr (ProbeOutcome × List FileWrite) :=
  match env.get url with
  | .error e => .error e
  | .ok response =>
    let http_code := response.status
    if response.status = 200 ∧ env.download then
      match env.write (basename url) response.body with
      | .error e => .error e
      | .ok _ =>
          .ok (⟨search_engine, url, http_code⟩, [⟨basename url, response.body⟩])
    else
      .ok (⟨search_engine, url, http_code⟩, [])

/-- How `asyncio.gather(..., return_exceptions=True)` records one task:
the returned value, or the raised exception as a value. -/
def gatherOne (r : Except PyErr ProbeOutcome) : GatherResult :=
  match r with
  | .ok o => .ok o
  | .error e => .exn e

/-- Embedding of `check_all_urls(urls, search_engine)`: one
`check_url_status` task per URL, joined by
`asyncio.gather(*tasks, return_exceptions=True)`, whose documented
semantics return the results in the order the tasks were passed. -/
def check_all_urls (env : ProbeEnv) (urls : List String) (search_engine : String) :
    List GatherResult :=
  urls.map (fun url => gatherOne ((check_url_status env search_engine url).map Prod.fst))

/-! ### Google search (`google_search`, `extract_google_urls`) -/

/-- What `google_search` evaluates to: either the list it built (each
element modelling one appended `{'items': ...}` page, reduced to the
pages' link strings), or the empty string `''` returned from the
`except HttpError` handler. -/
inductive GoogleResult
  | pages (ps : List (List String))
  | errorSentinel
deriving Repr, DecidableEq

/-- The Google Custom Search API as an oracle: given the `start` offset it
either raises `HttpError` or returns the page's `items` (reduced to their
`link` fields; an empty list models a response with no `items` key or a
falsy one). -/
def GoogleApi := Nat → Except PyErr (List String)

/-- The `while start <= 100` loop of `google_search`, also counting the
API calls issued.  Each iteration executes one `service.cse().list(...)`
request; a truthy `items` page is appended and `start` advances by 10, a
falsy page breaks, and a raised `HttpError` aborts to the handler which
returns `''`. -/
def google_search_loop (api : GoogleApi) (start : Nat)
    (acc : List (List String)) (calls : Nat) : GoogleResult × Nat :=
  if start ≤ 100 then
    match api start with
    | .error _ => (.errorSentinel, calls + 1)
    | .ok items =>
      if items.isEmpty then (.pages acc, calls + 1)
      else google_search_loop api (start + 10) (acc ++ [items]) (calls + 1)
  else (.pages acc, calls)
termination_by 101 - start
decreasing_by omega

/-- Embedding of `google_search(search_term, api_key, cse_id)`: the loop
starts at `start = 1` with an empty `results` list.  The second component
counts the page requests issued. -/
def google_search (api : GoogleApi) : GoogleResult × Nat :=
  google_search_loop api 1 [] 0

/-- Embedding of `extract_google_urls(results)`: flattens the per-page
`items` into one list of links. -/
def extract_google_urls (results : List (List String)) : List String :=
  results.flatten

/-! ### Bing search (`extract_bing_urls`) -/

/-- One element of `webPages.value`; `item.get('url')` may be absent. -/
structure BingItem where
  url : Option String
deriving Repr, DecidableEq

/-- The `webPages` object; `.get('value')` may be absent (`None`). -/
structure BingWebPages where
  value : Option (List BingItem)
deriving Repr, DecidableEq

/-- A parsed Bing response dictionary; `.get('webPages')` may be absent. -/
structure BingResults where
  webPages : Option BingWebPages
deriving Repr, DecidableEq

/-- Embedding of `extract_bing_urls(results)`:

```python
results_list = []
web_pages = results.get('webPages')
for item in web_pages.get('value'):
    results_list.append(item.get('url'))
return results_list
```

When `webPages` is absent, `web_pages` is `None` and
`web_pages.get('value')` raises `AttributeError`; when `value` is absent
the `for` iterates `None` and raises `TypeError`.  Nothing catches either,
so the function raises rather than returning. -/
def extract_bing_urls (results : BingResults) :
    Except PyErr (List (Option String)) :=
  match results.webPages with
  | none => .error (.exn "AttributeError: NoneType object has no attribute get")
  | some web_pages =>
    match web_pages.value with
    | none => .error (.exn "TypeError: NoneType object is not iterable")
    | some items => .ok (items.map (fun item => item.url))

/-! ### CLI arguments and the module-level credential check -/

/-- The parsed `ARGS` relevant to startup: string options are `none` when
not supplied on the command line. -/
structure Args where
  search_query : Option String
  google_api : Option String
  google_cse : Option String
  bing_key : Option String
  download : Bool
  write_csv : Bool
deriving Repr, DecidableEq

/-- Python truthiness of an optional string: `None` and `''` are falsy. -/
def truthy : Option String → Bool
  | none => false
  | some s => !s.isEmpty

/-- The external world an entire run touches: the Google API, the Bing
API (`requests.get(...).json()`, which may raise), and the probe
environment.  `bingApi = .ok none` models a falsy parsed body (e.g. `{}`). -/
structure WorldEnv where
  googleApi : GoogleApi
  bingApi : Except PyErr (Option BingResults)
  probe : ProbeEnv

/-- Embedding of `bing_search(search_term, sub_key)`: one `requests.get`
call; any exception is caught and `''` (modelled `none`) is returned. -/
def bing_search (env : WorldEnv) : Option BingResults :=
  match env.bingApi with
  | .error _ => none
  | .ok r => r

/-- How a whole run ends. -/
inductive RunOutcome
  | configExit (code : Nat)
  | crashed (e : PyErr)
  | completed (results : List GatherResult)
deriving Repr, DecidableEq

/-- Embedding of `main()`'s result gathering, paired with the number of
network calls it issues (Google page requests, the Bing request, and one
`session.get` per probed URL).  An exception escaping `main` (e.g. from
`extract_bing_urls`) crashes the process. -/
def pyMain (env : WorldEnv) (args : Args) : RunOutcome × Nat :=
  let googleStep : List GatherResult × Nat :=
    if truthy args.google_api ∧ truthy args.google_cse then
      match google_search env.googleApi with
      | (.pages ps, calls) =>
        if ps.isEmpty then ([], calls)
        else
          let urls := extract_google_urls ps
          (check_all_urls env.probe urls "Google", calls + urls.length)
      | (.errorSentinel, calls) => ([], calls)
    else ([], 0)
  let (googleResults, googleCalls) := googleStep
  if truthy args.bing_key then
    match bing_search env with
    | none => (.completed googleResults, googleCalls + 1)
    | some r =>
      match extract_bing_urls r with
      | .error e => (.crashed e, googleCalls + 1)
      | .ok items =>
        let urls := items.map (fun u => u.getD "None")
        (.completed (googleResults ++ check_all_urls env.probe urls "Bing"),
          googleCalls + 1 + urls.length)
  else (.completed googleResults, googleCalls)

/-- Embedding of the module-level startup (lines 38–44) followed by
`main()`:

```python
if not ARGS.search_query:
    PARSER.error('--search-query must be specified')
if (not ARGS.google_api or not ARGS.google_cse) and not ARGS.bing_key:
    PARSER.error('at least one search engine must be configured')
```

`PARSER.error` prints usage and exits with status 2 before `main` runs, so
no network call has been made at that point. -/
def run_fossick (env : WorldEnv) (args : Args) : RunOutcome × Nat :=
  if ¬ truthy args.search_query then (.configExit 2, 0)
  else if (¬ truthy args.google_api ∨ ¬ truthy args.google_cse) ∧
      ¬ truthy args.bing_key then (.configExit 2, 0)
  else pyMain env args

/-! ### CSV output (`save_output_csv`) -/

/-- Python's `str(n)` for the nonnegative `http_code`, digit by digit, as
`csv.DictWriter` renders the integer field. -/
def natDecimal (n : Nat) : List Char :=
  if n < 10 then [Nat.digitChar n]
  else natDecimal (n / 10) ++ [Nat.digitChar (n % 10)]
termination_by n
decreasing_by exact Nat.div_lt_self (by omega) (by omega)

/-- The three fields `csv.DictWriter` takes from one record, in the
`fieldnames = ['search_engine', 'url', 'http_code']` order. -/
def csvRow (r : ProbeOutcome) : List (List Char) :=
  [r.search_engine.data, r.url.data, natDecimal r.http_code]

/-- The header row written by `writer.writeheader()`. -/
def csvHeader : List (List Char) :=
  ["search_engine".data, "url".data, "http_code".data]

/-- `csv.QUOTE_MINIMAL`: a field is quoted iff it contains the delimiter,
the quotechar, or a line-ending character. -/
def needsQuote (f : List Char) : Bool :=
  f.any (fun c => c == '"' || c == ',' || c == '\x0d' || c == '\n')

/-- Inside a quoted field the writer doubles every quotechar
(`doublequote=True`). -/
def escapeQuotes (f : List Char) : List Char :=
  (f.map (fun c => if c = '"' then ['"', '"'] else [c])).flatten

/-- How `csv.DictWriter` renders one field under the default dialect:
verbatim when no special character occurs, otherwise wrapped in quotes
with inner quotes doubled. -/
def encodeField (f : List Char) : List Char :=
  if needsQuote f then '"' :: (escapeQuotes f ++ ['"']) else f

/-- One physical CSV record as written: encoded fields joined by `,`,
terminated by the `csv` module's default `\r\n`. -/
def writeLine (fields : List (List Char)) : List Char :=
  List.intercalate [','] (fields.map encodeField) ++ ['\x0d', '\n']

/-- Embedding of `save_output_csv(filename, search_results)` on the
successful path: header record then one record per outcome, as the byte
content of the file. -/
def save_output_csv (rs : List ProbeOutcome) : List Char :=
  ((csvHeader :: rs.map csvRow).map writeLine).flatten

/-- Reader, quoted-field state: accumulate until the closing quote; a
doubled quote is a literal quote. -/
def parseQuoted (acc : List Char) (cs : List Char) : List Char × List Char :=
  match cs with
  | [] => (acc, [])
  | c :: rest =>
    if c = '"' then
      match rest with
      | [] => (acc, [])
      | c2 :: rest2 =>
        if c2 = '"' then parseQuoted (acc ++ ['"']) rest2 else (acc, c2 :: rest2)
    else parseQuoted (acc ++ [c]) rest

/-- Reader, unquoted-field state: accumulate until a delimiter or a
line-ending character (left unconsumed). -/
def parseUnquoted (acc : List Char) (cs : List Char) : List Char × List Char :=
  match cs with
  | [] => (acc, [])
  | c :: rest =>
    if c = ',' ∨ c = '\x0d' ∨ c = '\n' then (acc, c :: rest)
    else parseUnquoted (acc ++ [c]) rest

/-- Reader, one field: a leading quotechar opens a quoted field,
anything else starts an unquoted one. -/
def takeField (cs : List Char) : List Char × List Char :=
  match cs with
  | [] => ([], [])
  | c :: rest => if c = '"' then parseQuoted [] rest else parseUnquoted [] (c :: rest)

/-- Reader, one record: fields separated by `,` until a line ending
(`\r\n`, or a bare `\n`/`\r`) or the end of input.  The fuel bounds the
number of fields; `read_csv` supplies more than enough. -/
def parseRecordF : Nat → List Char → List (List Char) × List Char
  | 0, _ => ([], [])
  | fuel + 1, cs =>
    match (takeField cs).2 with
    | [] => ([(takeField cs).1], [])
    | c :: rest =>
      if c = ',' then
        ((takeField cs).1 :: (parseRecordF fuel rest).1, (parseRecordF fuel rest).2)
      else if c = '\x0d' then
        match rest with
        | [] => ([(takeField cs).1], [])
        | c2 :: rest2 =>
          if c2 = '\n' then ([(takeField cs).1], rest2) else ([(takeField cs).1], rest)
      else ([(takeField cs).1], rest)

/-- Reader, whole file: one record after another until the input is
exhausted.  The fuel bounds the number of records. -/
def parseFileF : Nat → List Char → List (List (List Char))
  | 0, _ => []
  | fuel + 1, cs =>
    if cs.isEmpty then []
    else (parseRecordF (fuel + 1) cs).1 :: parseFileF fuel (parseRecordF (fuel + 1) cs).2

/-- An independent CSV reader implementing the `csv.reader` semantics for
the default dialect: quote-aware field scanning, so fields may contain
delimiters, doubled quotes and even line endings. -/
def read_csv (file : List Char) : List (List (List Char)) :=
  parseFileF (file.length + 1) file

/-! ### Concrete environments used to witness the theorems below -/

/-- A probe environment where `http://x/bad` raises on `session.get` and
every other URL answers 200. -/
def demoEnv : ProbeEnv where
  get := fun u =>
    if u = "http://x/bad" then .error (.exn "ConnectionError") else .ok ⟨200, [104, 105]⟩
  download := false
  write := fun _ _ => .ok ()

/-! ### C1, C2, C10: the batch verifier -/

/-- C1: for every list of URLs of length N submitted to `check_all_urls`
with an engine tag, the returned sequence has length N — exactly one
element per input URL — regardless of how many individual probes fail. -/
theorem check_all_urls_length (env : ProbeEnv) (urls : List String)
    (search_engine : String) :
    (check_all_urls env urls search_engine).length = urls.length := by
  simp [check_all_urls]

/-- C10: the sequence returned by `check_all_urls` is in input order — the
i-th element of the result is the outcome (or captured exception) of
probing the i-th submitted URL. -/
theorem check_all_urls_input_order (env : ProbeEnv) (urls : List String)
    (search_engine : String) (i : Nat) (hi : i < urls.length) :
    (check_all_urls env urls search_engine)[i]? =
      some (gatherOne ((check_url_status env search_engine urls[i]).map Prod.fst)) := by
  simp [check_all_urls, List.getElem?_eq_getElem hi]

/-- Witness for C10 at a concrete input. -/
theorem check_all_urls_input_order_witness :
    (check_all_urls demoEnv ["http://x/ok", "http://x/bad"] "Google")[0]? =
      some (.ok ⟨"Google", "http://x/ok", 200⟩) := by
  have h := check_all_urls_input_order demoEnv ["http://x/ok", "http://x/bad"]
    "Google" 0 (by decide)
  rw [h]; rfl

/-- C2: if the probe of the j-th URL raises, that failure is captured as
the error-marked element at position j of the batch result, every sibling
probe's outcome still appears (at its own position, determined only by its
own probe), and the batch returns a full-length list normally — no
exception propagates to the caller. -/
theorem check_all_urls_isolation (env : ProbeEnv) (urls : List String)
    (search_engine : String) (j : Nat) (hj : j < urls.length) (e : PyErr)
    (hfail : check_url_status env search_engine urls[j] = .error e) :
    (check_all_urls env urls search_engine).length = urls.length ∧
    (check_all_urls env urls search_engine)[j]? = some (.exn e) ∧
    ∀ i, (hi : i < urls.length) →
      (check_all_urls env urls search_engine)[i]? =
        some (gatherOne ((check_url_status env search_engine urls[i]).map Prod.fst)) := by
  refine ⟨by simp [check_all_urls], ?_, ?_⟩
  · simp [check_all_urls, List.getElem?_eq_getElem hj, hfail, gatherOne, Except.map]
  · intro i hi
    simp [check_all_urls, List.getElem?_eq_getElem hi]

/-- Witness for C2: one probe raises `ConnectionError`, its sibling's 200
outcome still appears and the failure shows up as the captured
exception. -/
theorem check_all_urls_isolation_witness :
    (check_all_urls demoEnv ["http://x/ok", "http://x/bad"] "Google")[1]? =
      some (.exn (.exn "ConnectionError")) ∧
    (check_all_urls demoEnv ["http://x/ok", "http://x/bad"] "Google")[0]? =
      some (.ok ⟨"Google", "http://x/ok", 200⟩) := by
  obtain ⟨-, hj, hall⟩ := check_all_urls_isolation demoEnv
    ["http://x/ok", "http://x/bad"] "Google" 1 (by decide)
    (.exn "ConnectionError") (by rfl)
  refine ⟨hj, ?_⟩
  rw [hall 0 (by decide)]; rfl

/-! ### C8, C6: the download branch of `check_url_status` -/

/-- A probe environment with downloading enabled where writes succeed;
`http://x/notfound` answers 404, everything else 200 with body bytes
`[104, 105]`. -/
def dlEnv : ProbeEnv where
  get := fun u => if u = "http://x/notfound" then .ok ⟨404, []⟩ else .ok ⟨200, [104, 105]⟩
  download := true
  write := fun _ _ => .ok ()

/-- A probe environment with downloading enabled where every GET answers
200 but the local write raises (e.g. the disk is full). -/
def c6Env : ProbeEnv where
  get := fun _ => .ok ⟨200, [55]⟩
  download := true
  write := fun _ _ => .error (.exn "OSError: No space left on device")

/-- C8: with download enabled and the write path healthy, a probe whose
GET answers 200 writes exactly one local file, named by the URL's final
path segment, whose content is the response body; a probe whose GET
answers anything other than 200 writes no file. -/
theorem check_url_status_download (env : ProbeEnv) (search_engine url : String)
    (resp : HttpResponse) (hget : env.get url = .ok resp)
    (hdl : env.download = true)
    (hw : env.write (basename url) resp.body = .ok ()) :
    (resp.status = 200 →
      check_url_status env search_engine url =
        .ok (⟨search_engine, url, 200⟩, [⟨basename url, resp.body⟩])) ∧
    (resp.status ≠ 200 →
      check_url_status env search_engine url =
        .ok (⟨search_engine, url, resp.status⟩, [])) := by
  constructor
  · intro h200
    simp [check_url_status, hget, hdl, h200, hw]
  · intro hne
    simp [check_url_status, hget, hdl, hne]

/-- Witness for C8: a 200 probe writes `page.bin` with the body bytes,
a 404 probe writes nothing. -/
theorem check_url_status_download_witness :
    check_url_status dlEnv "Google" "http://site/a/page.bin" =
      .ok (⟨"Google", "http://site/a/page.bin", 200⟩, [⟨"page.bin", [104, 105]⟩]) ∧
    check_url_status dlEnv "Google" "http://x/notfound" =
      .ok (⟨"Google", "http://x/notfound", 404⟩, []) := by
  constructor
  · have h := (check_url_status_download dlEnv "Google" "http://site/a/page.bin"
      ⟨200, [104, 105]⟩ rfl rfl rfl).1 rfl
    rw [h]; rfl
  · exact (check_url_status_download dlEnv "Google" "http://x/notfound"
      ⟨404, []⟩ rfl rfl rfl).2 (by decide)

/-- Counterexample to C6 as stated: with GET answering 200, download
enabled and the write raising, the probe's entry in the batch result is
the captured write exception, not an outcome carrying HTTP 200. -/
theorem download_write_failure_counterexample :
    check_all_urls c6Env ["http://h/f.txt"] "Google" =
      [.exn (.exn "OSError: No space left on device")] ∧
    check_all_urls c6Env ["http://h/f.txt"] "Google" ≠
      [.ok ⟨"Google", "http://h/f.txt", 200⟩] := by
  exact ⟨rfl, by decide⟩

/-- C6 (amended): a failure while writing the downloaded body propagates
out of `check_url_status` — nothing catches it — so the batch records
that probe as a captured exception; the HTTP 200 status is lost. -/
theorem check_url_status_write_failure (env : ProbeEnv) (search_engine url : String)
    (resp : HttpResponse) (e : PyErr) (hget : env.get url = .ok resp)
    (h200 : resp.status = 200) (hdl : env.download = true)
    (hw : env.write (basename url) resp.body = .error e) :
    check_url_status env search_engine url = .error e ∧
    check_all_urls env [url] search_engine = [.exn e] := by
  have hs : check_url_status env search_engine url = .error e := by
    simp [check_url_status, hget, hdl, h200, hw]
  exact ⟨hs, by simp [check_all_urls, hs, gatherOne, Except.map]⟩

/-- Witness for the amended C6 at a concrete environment. -/
theorem check_url_status_write_failure_witness :
    check_url_status c6Env "Google" "http://h/f.txt" =
      .error (.exn "OSError: No space left on device") ∧
    check_all_urls c6Env ["http://h/f.txt"] "Google" =
      [.exn (.exn "OSError: No space left on device")] :=
  check_url_status_write_failure c6Env "Google" "http://h/f.txt"
    ⟨200, [55]⟩ (.exn "OSError: No space left on device") rfl rfl rfl rfl

/-! ### C4: `extract_bing_urls` on a response without `webPages` -/

/-- C4 evaluated on the failing input: a parsed Bing response with no
`webPages` field makes `extract_bing_urls` raise (the `None` returned by
`results.get('webPages')` has no `.get`), so it does not return the empty
list the spec promises. -/
theorem extract_bing_urls_missing_webPages :
    extract_bing_urls ⟨none⟩ =
      .error (.exn "AttributeError: NoneType object has no attribute get") ∧
    extract_bing_urls ⟨none⟩ ≠ .ok [] :=
  ⟨rfl, fun h => nomatch h⟩

/-! ### C5: provider HTTP error mid-pagination -/

/-- A Google API oracle that answers the first two pages and then raises
`HttpError` on the third. -/
def c5Api : GoogleApi := fun s =>
  if s = 1 then .ok ["http://x/u1"]
  else if s = 11 then .ok ["http://x/u2"]
  else .error (.exn "HttpError 500")

/-- If, from the offset `1 + 10 * j` on, the API answers `m` further
non-empty pages and then raises on the next request (still within the
`start <= 100` window), the loop aborts to the `except HttpError` handler:
the accumulator is thrown away and the sentinel is returned. -/
theorem google_search_loop_error_discards (api : GoogleApi) (e : PyErr) :
    ∀ (m j : Nat) (acc : List (List String)) (c : Nat),
      (∀ i, i < m → ∃ q, api (1 + 10 * (j + i)) = .ok q ∧ q ≠ []) →
      api (1 + 10 * (j + m)) = .error e →
      1 + 10 * (j + m) ≤ 100 →
      google_search_loop api (1 + 10 * j) acc c = (.errorSentinel, c + m + 1) := by
  intro m
  induction m with
  | zero =>
    intro j acc c _ herr hle
    simp only [Nat.add_zero] at herr hle
    rw [google_search_loop, if_pos (by omega), herr]
  | succ m ih =>
    intro j acc c hok herr hle
    obtain ⟨q, hq, hqne⟩ := hok 0 (by omega)
    simp only [Nat.add_zero] at hq
    rw [google_search_loop, if_pos (by omega), hq]
    dsimp only
    rw [if_neg (by simpa [List.isEmpty_iff] using hqne)]
    rw [show 1 + 10 * j + 10 = 1 + 10 * (j + 1) from by omega]
    have hok' : ∀ i, i < m → ∃ q, api (1 + 10 * ((j + 1) + i)) = .ok q ∧ q ≠ [] := by
      intro i hi
      have h := hok (i + 1) (by omega)
      rwa [show j + (i + 1) = (j + 1) + i from by omega] at h
    have herr' : api (1 + 10 * ((j + 1) + m)) = .error e := by
      rwa [show (j + 1) + m = j + (m + 1) from by omega]
    rw [ih (j + 1) (acc ++ [q]) (c + 1) hok' herr' (by omega)]
    simp only [Prod.mk.injEq]
    exact ⟨trivial, by omega⟩

/-- C5 (amended): if, after fetching any number k ≥ 1 of non-empty pages,
the next page request (still within the `start <= 100` window) raises
`HttpError`, the handler returns the empty-string sentinel — every page
already fetched is discarded, not returned. -/
theorem google_search_midpagination_error (api : GoogleApi) (k : Nat)
    (e : PyErr) (hk1 : 1 ≤ k)
    (hok : ∀ i, i < k → ∃ q, api (1 + 10 * i) = .ok q ∧ q ≠ [])
    (herr : api (1 + 10 * k) = .error e) (hwin : 1 + 10 * k ≤ 100) :
    google_search api = (.errorSentinel, k + 1) := by
  have h := google_search_loop_error_discards api e k 0 [] 0
    (by intro i hi; simpa using hok i hi) (by simpa using herr) (by omega)
  simp only [Nat.mul_zero, Nat.add_zero, Nat.zero_add] at h
  rw [google_search]
  exact h

/-- Witness for the amended C5: two pages fetched, error on the third
request, everything discarded. -/
theorem google_search_midpagination_error_witness :
    google_search c5Api = (.errorSentinel, 3) := by
  have h := google_search_midpagination_error c5Api 2 (.exn "HttpError 500")
    (by omega)
    (by
      intro i hi
      interval_cases i
      · exact ⟨["http://x/u1"], rfl, by decide⟩
      · exact ⟨["http://x/u2"], rfl, by decide⟩)
    rfl (by omega)
  exact h

/-- Counterexample to C5 as stated: after successfully fetching the pages
`["http://x/u1"]` and `["http://x/u2"]` and then hitting an HTTP error,
`google_search` does not return the already-fetched pages — it returns
the error sentinel. -/
theorem google_search_midpagination_error_counterexample :
    google_search c5Api = (.errorSentinel, 3) ∧
    (google_search c5Api).1 ≠ .pages [["http://x/u1"], ["http://x/u2"]] := by
  have e1 : c5Api 1 = .ok ["http://x/u1"] := rfl
  have e11 : c5Api 11 = .ok ["http://x/u2"] := rfl
  have e21 : c5Api 21 = .error (.exn "HttpError 500") := rfl
  have h : google_search c5Api = (.errorSentinel, 3) := by
    rw [google_search, google_search_loop, if_pos (by omega), e1]
    dsimp only
    rw [if_neg (by decide)]
    show google_search_loop c5Api 11 [["http://x/u1"]] 1 = _
    rw [google_search_loop, if_pos (by omega), e11]
    dsimp only
    rw [if_neg (by decide)]
    show google_search_loop c5Api 21 [["http://x/u1"], ["http://x/u2"]] 2 = _
    rw [google_search_loop, if_pos (by omega), e21]
  exact ⟨h, by rw [h]; exact fun hc => nomatch hc⟩

/-! ### C7: the module-level credential check -/

/-- C7: when no complete engine credential set is supplied (no Google
API-key/CSE-ID pair and no Bing key), the process exits with `PARSER.error`
(status 2, non-zero) before `main` runs, so zero network calls are made —
whatever the outside world would have answered. -/
theorem run_fossick_config_exit (env : WorldEnv) (args : Args)
    (h : ¬ ((truthy args.google_api ∧ truthy args.google_cse) ∨ truthy args.bing_key)) :
    run_fossick env args = (.configExit 2, 0) := by
  rw [run_fossick]
  split
  · rfl
  · rw [if_pos]
    push_neg at h
    exact ⟨by_contra fun hc => by push_neg at hc; exact absurd (h.1 hc.1 hc.2) (by simp), h.2⟩

/-- Witness for C7: a run configured with a search query but no
credentials at all exits with the configuration error and a network-call
counter at zero. -/
theorem run_fossick_config_exit_witness :
    run_fossick ⟨fun _ => .ok [], .ok none, demoEnv⟩
      ⟨some "query", none, none, none, false, false⟩ = (.configExit 2, 0) :=
  run_fossick_config_exit _ _ (by decide)

/-! ### C3: Google pagination -/

/-- Invariant of the `while start <= 100` loop: when every API page is
returned (no `HttpError`) with at most 10 items, the loop returns a
normal `pages` value whose total item count grows by at most 10 per
remaining iteration. -/
theorem google_search_loop_pages_bound (api : GoogleApi)
    (H : ∀ s, ∃ its, api s = .ok its ∧ its.length ≤ 10) :
    ∀ n s acc c, 101 - s ≤ 10 * n →
      ∃ ps c', google_search_loop api s acc c = (.pages ps, c') ∧
        ps.flatten.length ≤ acc.flatten.length + 10 * n := by
  intro n
  induction n with
  | zero =>
    intro s acc c hs
    rw [google_search_loop, if_neg (by omega)]
    exact ⟨acc, c, rfl, by omega⟩
  | succ n ih =>
    intro s acc c hs
    by_cases h100 : s ≤ 100
    · obtain ⟨its, hok, hlen⟩ := H s
      rw [google_search_loop, if_pos h100, hok]
      dsimp only
      by_cases hemp : its.isEmpty = true
      · rw [if_pos hemp]
        exact ⟨acc, c + 1, rfl, by omega⟩
      · rw [if_neg hemp]
        obtain ⟨ps, c', heq, hb⟩ := ih (s + 10) (acc ++ [its]) (c + 1) (by omega)
        refine ⟨ps, c', heq, ?_⟩
        have hacc : (acc ++ [its]).flatten.length = acc.flatten.length + its.length := by
          simp
        omega
    · rw [google_search_loop, if_neg h100]
      exact ⟨acc, c, rfl, by omega⟩

/-- C3: `google_search` requests successive offsets from `start = 1` in
steps of 10 and accumulates pages until the first empty page or the
100-result ceiling.  Given 10-item pages at offsets 1, 11, 21 and an
empty page at 31, it returns exactly those 30 links and has issued
exactly 4 page requests; given an API that never returns an empty page
(at most 10 items each, as the engine caps a page), it returns at most
100 links. -/
theorem google_search_pagination :
    (∀ (api : GoogleApi) (p1 p2 p3 : List String),
      api 1 = .ok p1 → p1.length = 10 →
      api 11 = .ok p2 → p2.length = 10 →
      api 21 = .ok p3 → p3.length = 10 →
      api 31 = .ok [] →
      google_search api = (.pages [p1, p2, p3], 4) ∧
        (extract_google_urls [p1, p2, p3]).length = 30) ∧
    (∀ api : GoogleApi,
      (∀ s, ∃ its, api s = .ok its ∧ its ≠ [] ∧ its.length ≤ 10) →
      ∃ ps calls, google_search api = (.pages ps, calls) ∧
        (extract_google_urls ps).length ≤ 100) := by
  constructor
  · intro api p1 p2 p3 h1 hl1 h11 hl2 h21 hl3 h31
    have hne : ∀ p : List String, p.length = 10 → ¬(p.isEmpty = true) := by
      intro p hp
      simp only [List.isEmpty_iff]
      intro h
      rw [h] at hp
      simp at hp
    refine ⟨?_, by simp [extract_google_urls, hl1, hl2, hl3]⟩
    rw [google_search, google_search_loop, if_pos (by omega), h1]
    dsimp only
    rw [if_neg (hne p1 hl1)]
    show google_search_loop api 11 [p1] 1 = _
    rw [google_search_loop, if_pos (by omega), h11]
    dsimp only
    rw [if_neg (hne p2 hl2)]
    show google_search_loop api 21 [p1, p2] 2 = _
    rw [google_search_loop, if_pos (by omega), h21]
    dsimp only
    rw [if_neg (hne p3 hl3)]
    show google_search_loop api 31 [p1, p2, p3] 3 = _
    rw [google_search_loop, if_pos (by omega), h31]
    rfl
  · intro api H
    obtain ⟨ps, c', heq, hb⟩ := google_search_loop_pages_bound api
      (fun s => (H s).imp (fun _ h => ⟨h.1, h.2.2⟩)) 10 1 [] 0 (by omega)
    exact ⟨ps, c', heq, by simpa [extract_google_urls] using hb⟩

/-- One stub API page of 10 links starting at offset `s`. -/
def c3Page (s : Nat) : List String := (List.range 10).map (fun k => toString (s + k))

/-- A stub API: 10-item pages at offsets 1, 11, 21, then empty pages. -/
def c3StubApi : GoogleApi := fun s => if s ≤ 21 then .ok (c3Page s) else .ok []

/-- A stub API that never returns an empty page. -/
def c3ConstApi : GoogleApi := fun s => .ok (c3Page s)

/-- Witness for C3 on the two stub APIs. -/
theorem google_search_pagination_witness :
    (google_search c3StubApi = (.pages [c3Page 1, c3Page 11, c3Page 21], 4) ∧
      (extract_google_urls [c3Page 1, c3Page 11, c3Page 21]).length = 30) ∧
    (∃ ps calls, google_search c3ConstApi = (.pages ps, calls) ∧
      (extract_google_urls ps).length ≤ 100) := by
  constructor
  · exact google_search_pagination.1 c3StubApi (c3Page 1) (c3Page 11) (c3Page 21)
      rfl (by simp [c3Page]) rfl (by simp [c3Page]) rfl (by simp [c3Page]) rfl
  · exact google_search_pagination.2 c3ConstApi
      (fun s => ⟨c3Page s, rfl, by simp [c3Page], by simp [c3Page]⟩)

/-! ### C9: CSV round trip -/

theorem intercalate_singleton {α : Type} (sep x : List α) :
    List.intercalate sep [x] = x := by
  simp [List.intercalate, List.intersperse]

theorem intercalate_cons_of_ne_nil {α : Type} (sep x : List α)
    (xs : List (List α)) (h : xs ≠ []) :
    List.intercalate sep (x :: xs) = x ++ sep ++ List.intercalate sep xs := by
  cases xs with
  | nil => exact absurd rfl h
  | cons y ys => simp [List.intercalate, List.intersperse, List.append_assoc]

theorem intercalate_three {α : Type} (sep a b c : List α) :
    List.intercalate sep [a, b, c] = a ++ sep ++ (b ++ sep ++ c) := by
  rw [intercalate_cons_of_ne_nil _ _ _ (by simp),
    intercalate_cons_of_ne_nil _ _ _ (by simp)]
  simp [List.intercalate, List.intersperse, List.append_assoc]

theorem needsQuote_false_chars {f : List Char} (h : needsQuote f = false) :
    ∀ c ∈ f, c ≠ '"' ∧ c ≠ ',' ∧ c ≠ '\x0d' ∧ c ≠ '\n' := by
  intro c hc
  refine ⟨fun heq => ?_, fun heq => ?_, fun heq => ?_, fun heq => ?_⟩ <;>
    (subst heq
     have hT : needsQuote f = true := by
       rw [needsQuote, List.any_eq_true]
       exact ⟨_, hc, by decide⟩
     rw [h] at hT
     exact Bool.false_ne_true hT)

theorem escapeQuotes_nil : escapeQuotes [] = [] := rfl

theorem escapeQuotes_cons (c : Char) (f : List Char) :
    escapeQuotes (c :: f) = (if c = '"' then ['"', '"'] else [c]) ++ escapeQuotes f := by
  simp [escapeQuotes]

/-- Consuming an escaped field body up to (and including) its closing
quote recovers the field, provided what follows the closing quote does
not start with another quote. -/
theorem parseQuoted_escaped :
    ∀ (f acc rest : List Char), (∀ c r, rest = c :: r → c ≠ '"') →
      parseQuoted acc (escapeQuotes f ++ ('"' :: rest)) = (acc ++ f, rest) := by
  intro f
  induction f with
  | nil =>
    intro acc rest hrest
    rw [escapeQuotes_nil, List.nil_append, parseQuoted.eq_def]
    dsimp only
    rw [if_pos rfl]
    cases rest with
    | nil => simp
    | cons c r =>
      dsimp only
      rw [if_neg (hrest c r rfl)]
      simp
  | cons c f' ih =>
    intro acc rest hrest
    by_cases hc : c = '"'
    · subst hc
      rw [escapeQuotes_cons, if_pos rfl]
      rw [show (['"', '"'] ++ escapeQuotes f') ++ ('"' :: rest) =
          '"' :: '"' :: (escapeQuotes f' ++ ('"' :: rest)) from by simp]
      rw [parseQuoted.eq_def]
      dsimp only
      rw [if_pos rfl, if_pos rfl, ih (acc ++ ['"']) rest hrest]
      simp
    · rw [escapeQuotes_cons, if_neg hc]
      rw [show ([c] ++ escapeQuotes f') ++ ('"' :: rest) =
          c :: (escapeQuotes f' ++ ('"' :: rest)) from by simp]
      rw [parseQuoted.eq_def]
      dsimp only
      rw [if_neg hc, ih (acc ++ [c]) rest hrest]
      simp

/-- Consuming a special-character-free field stops exactly at the
following delimiter or line ending. -/
theorem parseUnquoted_plain :
    ∀ (f : List Char), (∀ c ∈ f, ¬(c = ',' ∨ c = '\x0d' ∨ c = '\n')) →
    ∀ (acc rest : List Char),
      (rest = [] ∨ ∃ c r, rest = c :: r ∧ (c = ',' ∨ c = '\x0d' ∨ c = '\n')) →
      parseUnquoted acc (f ++ rest) = (acc ++ f, rest) := by
  intro f
  induction f with
  | nil =>
    intro _ acc rest hrest
    rw [List.nil_append]
    rcases hrest with rfl | ⟨c, r, rfl, hc⟩
    · rw [parseUnquoted]; simp
    · rw [parseUnquoted]
      rw [if_pos hc]
      simp
  | cons c f' ih =>
    intro hf acc rest hrest
    have hc : ¬(c = ',' ∨ c = '\x0d' ∨ c = '\n') := hf c (List.mem_cons_self c f')
    rw [List.cons_append, parseUnquoted]
    rw [if_neg hc, ih (fun c' hc' => hf c' (List.mem_cons_of_mem c hc')) (acc ++ [c]) rest hrest]
    simp

theorem takeField_quoted (X : List Char) : takeField ('"' :: X) = parseQuoted [] X := by
  rw [takeField]
  rw [if_pos rfl]

/-- Scanning one written field recovers it, whether or not the writer
quoted it, when the field is followed by a delimiter or by `\r`. -/
theorem takeField_encoded (f rest : List Char)
    (hr : ∃ r, rest = ',' :: r ∨ rest = '\x0d' :: r) :
    takeField (encodeField f ++ rest) = (f, rest) := by
  obtain ⟨r, hr⟩ := hr
  have hrhead : ∀ c r', rest = c :: r' → c ≠ '"' := by
    intro c r' h
    rcases hr with h' | h' <;>
      (rw [h'] at h; injection h with h1 _; rw [← h1]; decide)
  rw [encodeField]
  by_cases hq : needsQuote f = true
  · rw [if_pos hq]
    rw [show ('"' :: (escapeQuotes f ++ ['"'])) ++ rest =
        '"' :: (escapeQuotes f ++ ('"' :: rest)) from by simp]
    rw [takeField_quoted, parseQuoted_escaped f [] rest hrhead]
    simp
  · rw [if_neg hq]
    have hq' : needsQuote f = false := by
      cases hnq : needsQuote f
      · rfl
      · exact absurd hnq hq
    have hchars := needsQuote_false_chars hq'
    have hhead : ∀ c r', f ++ rest = c :: r' → c ≠ '"' := by
      intro c r' h
      cases f with
      | nil => exact hrhead c r' (by simpa using h)
      | cons c0 f0 =>
        rw [List.cons_append] at h
        injection h with h1 _
        rw [← h1]
        exact (hchars c0 (List.mem_cons_self _ _)).1
    have htf : takeField (f ++ rest) = parseUnquoted [] (f ++ rest) := by
      cases hfr : f ++ rest with
      | nil => rfl
      | cons c r' =>
        rw [takeField]
        rw [if_neg (hhead c r' hfr)]
    have hrest' : rest = [] ∨ ∃ c r', rest = c :: r' ∧ (c = ',' ∨ c = '\x0d' ∨ c = '\n') := by
      rcases hr with h' | h'
      · exact Or.inr ⟨',', r, h', Or.inl rfl⟩
      · exact Or.inr ⟨'\x0d', r, h', Or.inr (Or.inl rfl)⟩
    have hfchars : ∀ c ∈ f, ¬(c = ',' ∨ c = '\x0d' ∨ c = '\n') := by
      intro c hc
      have h' := hchars c hc
      rintro (h | h | h)
      exacts [h'.2.1 h, h'.2.2.1 h, h'.2.2.2 h]
    rw [htf, parseUnquoted_plain f hfchars [] rest hrest']
    simp

/-- Scanning one written record recovers its fields and leaves exactly
what follows the record's `\r\n` terminator. -/
theorem parseRecordF_encoded :
    ∀ (fields : List (List Char)) (fuel : Nat) (rest : List Char),
      fields ≠ [] → fields.length ≤ fuel →
      parseRecordF fuel
        (List.intercalate [','] (fields.map encodeField) ++ ('\x0d' :: '\n' :: rest)) =
        (fields, rest) := by
  intro fields
  induction fields with
  | nil => intro fuel rest h _; exact absurd rfl h
  | cons f fs ih =>
    intro fuel rest _ hfuel
    cases fuel with
    | zero => simp only [List.length_cons] at hfuel; omega
    | succ k =>
      cases fs with
      | nil =>
        rw [show List.intercalate [','] ([f].map encodeField) = encodeField f from by
          rw [show [f].map encodeField = [encodeField f] from rfl, intercalate_singleton]]
        have htf := takeField_encoded f ('\x0d' :: '\n' :: rest) ⟨'\n' :: rest, Or.inr rfl⟩
        rw [parseRecordF, htf]
        dsimp only
        rw [if_neg (by decide), if_pos rfl, if_pos rfl]
      | cons f2 fs2 =>
        rw [show ((f :: f2 :: fs2).map encodeField) =
            encodeField f :: ((f2 :: fs2).map encodeField) from rfl]
        rw [intercalate_cons_of_ne_nil _ _ _ (by simp)]
        rw [show (encodeField f ++ [','] ++
            List.intercalate [','] ((f2 :: fs2).map encodeField)) ++ ('\x0d' :: '\n' :: rest) =
            encodeField f ++ (',' ::
              (List.intercalate [','] ((f2 :: fs2).map encodeField) ++
                ('\x0d' :: '\n' :: rest))) from by simp]
        have htf := takeField_encoded f
          (',' :: (List.intercalate [','] ((f2 :: fs2).map encodeField) ++
            ('\x0d' :: '\n' :: rest))) ⟨_, Or.inl rfl⟩
        rw [parseRecordF, htf]
        dsimp only
        rw [if_pos rfl]
        have hfuel' : (f2 :: fs2).length ≤ k := by
          simp only [List.length_cons] at hfuel ⊢
          omega
        rw [ih k rest (by simp) hfuel']

theorem writeLine_length_ge (fields : List (List Char)) (h3 : fields.length = 3) :
    4 ≤ (writeLine fields).length := by
  obtain ⟨a, b, c, rfl⟩ := List.length_eq_three.mp h3
  rw [writeLine]
  rw [show ([a, b, c].map encodeField) =
      [encodeField a, encodeField b, encodeField c] from rfl]
  rw [intercalate_three]
  simp only [List.length_append, List.length_cons, List.length_nil]
  omega

theorem flatten_writeLine_length (rows : List (List (List Char)))
    (h3 : ∀ r ∈ rows, r.length = 3) :
    4 * rows.length ≤ ((rows.map writeLine).flatten).length := by
  induction rows with
  | nil => simp
  | cons r t ih =>
    rw [List.map_cons, List.flatten_cons, List.length_append]
    have h1 := writeLine_length_ge r (h3 r (List.mem_cons_self _ _))
    have h2 := ih (fun r' hr' => h3 r' (List.mem_cons_of_mem _ hr'))
    simp only [List.length_cons]
    omega

/-- Reading a written sequence of three-field records back, with enough
fuel, recovers exactly those records. -/
theorem parseFileF_encoded :
    ∀ (rows : List (List (List Char))) (fuel : Nat),
      (∀ r ∈ rows, r.length = 3) →
      rows.length + 3 ≤ fuel →
      parseFileF fuel ((rows.map writeLine).flatten) = rows := by
  intro rows
  induction rows with
  | nil =>
    intro fuel _ _
    cases fuel <;> rfl
  | cons r t ih =>
    intro fuel h3 hfuel
    cases fuel with
    | zero => simp only [List.length_cons] at hfuel; omega
    | succ k =>
      rw [List.map_cons, List.flatten_cons]
      have hcs : writeLine r ++ (t.map writeLine).flatten =
          List.intercalate [','] (r.map encodeField) ++
            ('\x0d' :: '\n' :: (t.map writeLine).flatten) := by
        rw [writeLine]
        simp [List.append_assoc]
      have hr3 := h3 r (List.mem_cons_self _ _)
      have hrne : r ≠ [] := by
        intro hcontr
        rw [hcontr] at hr3
        simp at hr3
      have hpr := parseRecordF_encoded r (k + 1) ((t.map writeLine).flatten)
        hrne (by simp only [List.length_cons] at hfuel; omega)
      rw [parseFileF]
      rw [if_neg (by simp [List.isEmpty_iff, writeLine])]
      rw [hcs, hpr]
      dsimp only
      rw [ih k (fun r' hr' => h3 r' (List.mem_cons_of_mem _ hr'))
        (by simp only [List.length_cons] at hfuel; omega)]

/-- C9: writing any N `ProbeOutcome` records with `save_output_csv`
produces a file whose first row is the header
`search_engine,url,http_code` and which has one data row per record;
re-reading the file yields the N written
`(search_engine, url, http_code)` triples, in order (hence "in some
order").  Holds for arbitrary field contents: the writer applies
`QUOTE_MINIMAL` quoting and the reader is quote-aware. -/
theorem save_output_csv_roundtrip (rs : List ProbeOutcome) :
    read_csv (save_output_csv rs) = csvHeader :: rs.map csvRow ∧
    (read_csv (save_output_csv rs)).length = rs.length + 1 := by
  have hrows3 : ∀ r ∈ csvHeader :: rs.map csvRow, r.length = 3 := by
    intro r hr
    rcases List.mem_cons.mp hr with h | h
    · subst h; rfl
    · obtain ⟨o, -, rfl⟩ := List.mem_map.mp h
      rfl
  have hlen := flatten_writeLine_length (csvHeader :: rs.map csvRow) hrows3
  have h : read_csv (save_output_csv rs) = csvHeader :: rs.map csvRow := by
    rw [read_csv, save_output_csv]
    refine parseFileF_encoded (csvHeader :: rs.map csvRow) _ hrows3 ?_
    simp only [List.length_cons, List.length_map] at hlen ⊢
    omega
  refine ⟨h, ?_⟩
  rw [h]
  simp

/-- Witness for C9 on concrete records, one of whose fields contains both
a quote and a comma and is therefore written quoted. -/
theorem save_output_csv_roundtrip_witness :
    read_csv (save_output_csv
        [⟨"Google", "http://x/a?q=\"v\",w", 200⟩, ⟨"Bing", "http://y/b", 404⟩]) =
      csvHeader :: [ProbeOutcome.mk "Google" "http://x/a?q=\"v\",w" 200,
        ProbeOutcome.mk "Bing" "http://y/b" 404].map csvRow ∧
    (read_csv (save_output_csv
        [⟨"Google", "http://x/a?q=\"v\",w", 200⟩, ⟨"Bing", "http://y/b", 404⟩])).length = 3 :=
  save_output_csv_roundtrip
    [⟨"Google", "http://x/a?q=\"v\",w", 200⟩, ⟨"Bing", "http://y/b", 404⟩]
end Fossick
